import Mathlib

/-!
Shallow embedding of the cache / session engine of beniocord.js
(src/Client.js and src/structures), together with proofs of the spec
claims about it.

The JS `Map` objects in `this.cache` are modelled as insertion-ordered
association lists (`List (Nat × α)`): `Map.get`, `Map.set`, `Map.has`
and `for ... of` iteration in insertion order all map directly onto this
representation.  Cached entities (users, channels, messages) are plain
records; mutation in place becomes functional update of the record at
its position in the store.
-/

namespace Beniocord

/-- Lookup in a JS `Map` modelled as an association list (`Map.get`). -/
def mapGet {α : Type} : List (Nat × α) → Nat → Option α
  | [], _ => none
  | (k', v) :: rest, k => if k' = k then some v else mapGet rest k

/-- Update/insert in a JS `Map` (`Map.set`): overwrites the value at an
existing key in place, otherwise appends the new pair at the end, matching
insertion-order iteration semantics of `Map`. -/
def mapSet {α : Type} : List (Nat × α) → Nat → α → List (Nat × α)
  | [], k, v => [(k, v)]
  | (k', v') :: rest, k, v =>
    if k' = k then (k, v) :: rest else (k', v') :: mapSet rest k v

/-- Cached user (src/structures/User.js); only the fields the message
pipeline reads or writes are carried. -/
structure UserS where
  id : Nat
  username : Option String := none
  displayName : Option String := none
  avatarUrl : Option String := none
  deriving Repr, DecidableEq

/-- Cached channel (src/structures/Channel.js); only the fields the message
pipeline reads or writes are carried. -/
structure ChanS where
  id : Nat
  name : Option String := none
  deriving Repr, DecidableEq

/-- Cached message (src/lib/structures/Message.js): the constructor leaves
`edited` and `deleted` unset (falsy), modelled as `false`. -/
structure Msg where
  id : Nat
  content : String
  author : Option UserS := none
  channel : Option ChanS := none
  editedAt : Option String := none
  edited : Bool := false
  deleted : Bool := false
  deriving Repr, DecidableEq

/-- Raw author payload nested in a push event (`data.user`). -/
structure RawUser where
  id : Nat
  username : Option String := none
  display_name : Option String := none
  avatar_url : Option String := none
  deriving Repr, DecidableEq

/-- Raw channel payload nested in a push event (`data.channel`). -/
structure RawChan where
  id : Nat
  name : Option String := none
  deriving Repr, DecidableEq

/-- Raw wire payload of a "message created" push event or of a
`message:send` acknowledgement, with the fields `Message`'s constructor and
`_processSocketMessage` read. -/
structure RawMsg where
  id : Nat
  content : String := ""
  user : Option RawUser := none
  channel : Option RawChan := none
  user_id : Option Nat := none
  username : Option String := none
  display_name : Option String := none
  avatar_url : Option String := none
  channel_id : Option Nat := none
  edited_at : Option String := none
  deriving Repr, DecidableEq

/-- The client cache (src/Client.js constructor): one keyed store per entity
kind; `messages` maps a channel ID to its ordered message list.  The stores
not touched by the verified claims (emojis, stickers, presence) are
omitted. -/
structure Cache where
  users : List (Nat × UserS) := []
  channels : List (Nat × ChanS) := []
  messages : List (Nat × List Msg) := []
  deriving Repr, DecidableEq

/-- `_ensureCached(map, key, value)` (src/Client.js:583-588): returns the
existing entry when the key is present, otherwise inserts `value`.  First
component is the instance the call returns, second the resulting store.
Stored values are always objects in the source, so the truthiness test
`if (existing)` coincides with presence of the key. -/
def ensureCached {α : Type} (m : List (Nat × α)) (k : Nat) (v : α) :
    α × List (Nat × α) :=
  match mapGet m k with
  | some existing => (existing, m)
  | none => (v, mapSet m k v)

/-- The per-channel list step of `_cacheMessage` (src/Client.js:530-536):
push the message, then drop the oldest entry when the length exceeds 50. -/
def appendCapped (ms : List Msg) (m : Msg) : List Msg :=
  let pushed := ms ++ [m]
  if 50 < pushed.length then pushed.tail else pushed

/-- `_cacheMessage(msg)` (src/Client.js:518-537): ensure the author and the
channel are cached, then append the message to the channel's capped list.
Nothing happens to the message stores when the message has no channel. -/
def cacheMessage (c : Cache) (msg : Msg) : Cache :=
  let c₁ :=
    match msg.author with
    | some a => { c with users := (ensureCached c.users a.id a).2 }
    | none => c
  match msg.channel with
  | some ch =>
    { c₁ with
      channels := (ensureCached c₁.channels ch.id ch).2,
      messages := mapSet c₁.messages ch.id
        (appendCapped ((mapGet c₁.messages ch.id).getD []) msg) }
  | none => c₁

/-- The inner `messages.find` + in-place mutation of `_markMessageDeleted`:
set the `deleted` flag on the first message with the given ID. -/
def markFirstDeleted : List Msg → Nat → List Msg
  | [], _ => []
  | m :: rest, mid =>
    if m.id = mid then { m with deleted := true } :: rest
    else m :: markFirstDeleted rest mid

/-- `_markMessageDeleted(messageId)` (src/Client.js:539-547): walk the
channel map in insertion order; in the first channel containing the ID, flag
that message as deleted and stop (`break`). -/
def markMessageDeleted : List (Nat × List Msg) → Nat → List (Nat × List Msg)
  | [], _ => []
  | (cid, ms) :: rest, mid =>
    if ms.any (fun m => m.id = mid) then (cid, markFirstDeleted ms mid) :: rest
    else (cid, ms) :: markMessageDeleted rest mid

/-- The inner `messages.find` + in-place mutation of `_updateMessageContent`:
overwrite content and edit metadata on the first message with the given ID. -/
def updateFirstContent : List Msg → Nat → String → String → List Msg
  | [], _, _, _ => []
  | m :: rest, mid, content, editedAt =>
    if m.id = mid then
      { m with content := content, editedAt := some editedAt, edited := true } :: rest
    else m :: updateFirstContent rest mid content editedAt

/-- `_updateMessageContent(messageId, content, editedAt)`
(src/Client.js:549-559): walk the channel map in insertion order; in the
first channel containing the ID, rewrite that message's content and edit
metadata and stop (`break`). -/
def updateMessageContent :
    List (Nat × List Msg) → Nat → String → String → List (Nat × List Msg)
  | [], _, _, _ => []
  | (cid, ms) :: rest, mid, content, editedAt =>
    if ms.any (fun m => m.id = mid) then
      (cid, updateFirstContent ms mid content editedAt) :: rest
    else (cid, ms) :: updateMessageContent rest mid content editedAt

/-! Basic facts about the association-list Map model. -/

theorem mapGet_mapSet_self {α : Type} (m : List (Nat × α)) (k : Nat) (v : α) :
    mapGet (mapSet m k v) k = some v := by
  induction m with
  | nil => simp [mapSet, mapGet]
  | cons p rest ih =>
    obtain ⟨k', v'⟩ := p
    by_cases h : k' = k
    · simp [mapSet, h, mapGet]
    · simp [mapSet, h, mapGet, ih]

theorem mapGet_mem {α : Type} {m : List (Nat × α)} {k : Nat} {v : α}
    (h : mapGet m k = some v) : (k, v) ∈ m := by
  induction m with
  | nil => simp [mapGet] at h
  | cons p rest ih =>
    obtain ⟨k', v'⟩ := p
    by_cases hk : k' = k
    · simp [mapGet, hk] at h
      simp [hk, h]
    · simp [mapGet, hk] at h
      exact List.mem_cons_of_mem _ (ih h)

theorem mem_mapSet {α : Type} {m : List (Nat × α)} {k : Nat} {v : α}
    {p : Nat × α} (h : p ∈ mapSet m k v) : p ∈ m ∨ p = (k, v) := by
  induction m with
  | nil => simp [mapSet] at h; simp [h]
  | cons q rest ih =>
    obtain ⟨k', v'⟩ := q
    by_cases hk : k' = k
    · simp [mapSet, hk] at h
      rcases h with h | h
      · right; exact h
      · left; exact List.mem_cons_of_mem _ h
    · simp [mapSet, hk] at h
      rcases h with h | h
      · left; simp [h]
      · rcases ih h with h' | h'
        · left; exact List.mem_cons_of_mem _ h'
        · right; exact h'

/-- Claim C7: `_ensureCached` is idempotent on identity — for every store,
ID and pair of values, a second call with the same ID and a different value
returns the value produced by the first call, and leaves the store exactly
as the first call left it. -/
theorem C7_ensureCached_idempotent {α : Type} (m : List (Nat × α)) (k : Nat)
    (v₁ v₂ : α) :
    (ensureCached (ensureCached m k v₁).2 k v₂).1 = (ensureCached m k v₁).1 ∧
    (ensureCached (ensureCached m k v₁).2 k v₂).2 = (ensureCached m k v₁).2 := by
  unfold ensureCached
  cases h : mapGet m k with
  | some existing => simp [h]
  | none => simp [h, mapGet_mapSet_self]

/-! Edit idempotence. -/

theorem updateFirstContent_idem (ms : List Msg) (mid : Nat)
    (content editedAt : String) :
    updateFirstContent (updateFirstContent ms mid content editedAt)
        mid content editedAt
      = updateFirstContent ms mid content editedAt := by
  induction ms with
  | nil => simp [updateFirstContent]
  | cons m rest ih =>
    by_cases h : m.id = mid
    · simp [updateFirstContent, h]
    · simp [updateFirstContent, h, ih]

theorem updateFirstContent_any (ms : List Msg) (mid : Nat)
    (content editedAt : String) :
    (updateFirstContent ms mid content editedAt).any (fun m => m.id = mid)
      = ms.any (fun m => m.id = mid) := by
  induction ms with
  | nil => simp [updateFirstContent]
  | cons m rest ih =>
    by_cases h : m.id = mid
    · simp [updateFirstContent, h]
    · simp [updateFirstContent, h, ih]

/-- Claim C8: applying the same "message edited" push event twice leaves the
message cache exactly as applying it once does — the cached content and edit
metadata agree — for every cache state and every edit event. -/
theorem C8_edit_idempotent (mm : List (Nat × List Msg)) (mid : Nat)
    (content editedAt : String) :
    updateMessageContent (updateMessageContent mm mid content editedAt)
        mid content editedAt
      = updateMessageContent mm mid content editedAt := by
  induction mm with
  | nil => simp [updateMessageContent]
  | cons p rest ih =>
    obtain ⟨cid, ms⟩ := p
    by_cases h : ms.any (fun m => m.id = mid)
    · simp [updateMessageContent, h, updateFirstContent_any,
        updateFirstContent_idem]
    · simp [updateMessageContent, h, ih]

/-! Frame properties of message deletion. -/

theorem markFirstDeleted_spec (ms : List Msg) (mid : Nat)
    (h : ms.any (fun m => m.id = mid) = true) :
    ∃ p m s, ms = p ++ m :: s ∧ m.id = mid ∧ (∀ m' ∈ p, m'.id ≠ mid) ∧
      markFirstDeleted ms mid = p ++ { m with deleted := true } :: s := by
  induction ms with
  | nil => simp at h
  | cons m rest ih =>
    by_cases hm : m.id = mid
    · exact ⟨[], m, rest, by simp, hm, by simp, by simp [markFirstDeleted, hm]⟩
    · have hrest : rest.any (fun x => x.id = mid) = true := by
        simpa [hm] using h
      obtain ⟨p, m', s, hsplit, hmid, hp, heq⟩ := ih hrest
      refine ⟨m :: p, m', s, by simp [hsplit], hmid, ?_, ?_⟩
      · intro x hx
        rcases List.mem_cons.mp hx with hx | hx
        · simpa [hx] using hm
        · exact hp x hx
      · simp [markFirstDeleted, hm, heq]

/-- Claim C10: processing a "message deleted" push event (and the identical
mutation a successful `deleteMessage` would perform) either leaves the whole
channel-to-messages map untouched — when no cached message carries the ID —
or replaces exactly one message, the first one carrying the ID, by the same
record with only its `deleted` flag set; every channel entry, every list
length, the order of every list and every other message are unchanged, so
deleted messages keep their slots. -/
theorem C10_delete_frame (mm : List (Nat × List Msg)) (mid : Nat) :
    (markMessageDeleted mm mid = mm ∧ ∀ q ∈ mm, ∀ m' ∈ q.2, m'.id ≠ mid) ∨
    (∃ pre cid p m s post,
      mm = pre ++ (cid, p ++ m :: s) :: post ∧
      m.id = mid ∧
      (∀ q ∈ pre, ∀ m' ∈ q.2, m'.id ≠ mid) ∧
      (∀ m' ∈ p, m'.id ≠ mid) ∧
      markMessageDeleted mm mid
        = pre ++ (cid, p ++ { m with deleted := true } :: s) :: post) := by
  induction mm with
  | nil => exact Or.inl ⟨rfl, by simp⟩
  | cons q rest ih =>
    obtain ⟨cid, ms⟩ := q
    by_cases h : ms.any (fun m => m.id = mid) = true
    · obtain ⟨p, m, s, hsplit, hmid, hp, heq⟩ := markFirstDeleted_spec ms mid h
      refine Or.inr ⟨[], cid, p, m, s, rest, by simp [hsplit], hmid, by simp, hp, ?_⟩
      simp only [markMessageDeleted]
      rw [if_pos h, heq]
      simp
    · have hnone : ∀ m' ∈ ms, m'.id ≠ mid := by
        intro m' hm' hc
        exact h (List.any_eq_true.mpr ⟨m', hm', by simp [hc]⟩)
      rcases ih with ⟨heq, hall⟩ | ⟨pre, cid', p, m, s, post, hsplit, hmid, hpre, hp, heq⟩
      · refine Or.inl ⟨?_, ?_⟩
        · simp only [markMessageDeleted]
          rw [if_neg h, heq]
        · intro q hq
          rcases List.mem_cons.mp hq with hq | hq
          · subst hq; exact hnone
          · exact hall q hq
      · refine Or.inr ⟨(cid, ms) :: pre, cid', p, m, s, post,
          by simp [hsplit], hmid, ?_, hp, ?_⟩
        · intro q hq
          rcases List.mem_cons.mp hq with hq | hq
          · subst hq; exact hnone
          · exact hpre q hq
        · simp only [markMessageDeleted]
          rw [if_neg h, heq]
          simp

/-! The FIFO behaviour of the capped per-channel message list. -/

theorem appendCapped_eq (ms : List Msg) (m : Msg) (h : ms.length ≤ 50) :
    appendCapped ms m = (ms ++ [m]).drop (ms.length + 1 - 50) := by
  simp only [appendCapped]
  by_cases h50 : 50 < (ms ++ [m]).length
  · have hlen : ms.length + 1 - 50 = 1 := by
      simp only [List.length_append, List.length_cons, List.length_nil] at h50
      omega
    rw [if_pos h50, hlen, List.drop_one]
  · have hlen : ms.length + 1 - 50 = 0 := by
      simp only [List.length_append, List.length_cons, List.length_nil] at h50
      omega
    rw [if_neg h50, hlen, List.drop_zero]

theorem appendCapped_length_le (ms : List Msg) (m : Msg) (h : ms.length ≤ 50) :
    (appendCapped ms m).length ≤ 50 := by
  rw [appendCapped_eq ms m h]
  simp
  omega

theorem foldl_appendCapped (l : List Msg) :
    ∀ acc : List Msg, acc.length ≤ 50 →
      l.foldl appendCapped acc = (acc ++ l).drop (acc.length + l.length - 50) := by
  induction l with
  | nil =>
    intro acc h
    simp only [List.foldl_nil, List.append_nil, List.length_nil, Nat.add_zero]
    rw [Nat.sub_eq_zero_of_le h, List.drop_zero]
  | cons m rest ih =>
    intro acc h
    have hd : acc.length + 1 - 50 ≤ (acc ++ [m]).length := by simp; omega
    rw [List.foldl_cons, ih _ (appendCapped_length_le acc m h), appendCapped_eq acc m h,
      ← List.drop_append_of_le_length hd, List.drop_drop, List.length_drop]
    rw [show (acc ++ [m]) ++ rest = acc ++ m :: rest by simp]
    congr 1
    simp only [List.length_append, List.length_cons, List.length_nil]
    omega

theorem cacheMessage_messages_get (c : Cache) (msg : Msg) (ch : ChanS)
    (h : msg.channel = some ch) :
    mapGet (cacheMessage c msg).messages ch.id
      = some (appendCapped ((mapGet c.messages ch.id).getD []) msg) := by
  cases hauth : msg.author <;>
    simp [cacheMessage, h, hauth, mapGet_mapSet_self]

theorem foldl_cacheMessage_get (ch : ChanS) (msgs : List Msg) :
    ∀ (c : Cache) (acc : List Msg), (∀ m ∈ msgs, m.channel = some ch) →
      (mapGet c.messages ch.id).getD [] = acc →
      (mapGet (msgs.foldl cacheMessage c).messages ch.id).getD []
        = msgs.foldl appendCapped acc := by
  induction msgs with
  | nil =>
    intro c acc _ hacc
    simpa using hacc
  | cons m rest ih =>
    intro c acc hch hacc
    have hm : m.channel = some ch := hch m (List.mem_cons_self m rest)
    have hstep : mapGet (cacheMessage c m).messages ch.id
        = some (appendCapped acc m) := by
      rw [cacheMessage_messages_get c m ch hm, hacc]
    rw [List.foldl_cons, List.foldl_cons]
    exact ih (cacheMessage c m) (appendCapped acc m)
      (fun x hx => hch x (List.mem_cons_of_mem m hx)) (by rw [hstep]; rfl)

/-- A concrete "message created" payload for witnesses: message number `i`
for channel `ch`. -/
def testMsg (ch : ChanS) (i : Nat) : Msg :=
  { id := i, content := "", channel := some ch }

/-- Claim C6: delivering N consecutive "message created" events for one
channel (none suppressed as echoes) to `_cacheMessage`, starting from a
channel whose cached list is empty, leaves exactly the most recent
`min N 50` of them, in arrival order — the suffix of the event sequence;
the length of the cached list is `min N 50`. -/
theorem C6_message_cache_fifo (c₀ : Cache) (ch : ChanS) (msgs : List Msg)
    (hch : ∀ m ∈ msgs, m.channel = some ch)
    (h₀ : (mapGet c₀.messages ch.id).getD [] = []) :
    (mapGet (msgs.foldl cacheMessage c₀).messages ch.id).getD []
        = msgs.drop (msgs.length - 50) ∧
    ((mapGet (msgs.foldl cacheMessage c₀).messages ch.id).getD []).length
        = min msgs.length 50 := by
  have hmain : (mapGet (msgs.foldl cacheMessage c₀).messages ch.id).getD []
      = msgs.drop (msgs.length - 50) := by
    rw [foldl_cacheMessage_get ch msgs c₀ [] hch h₀,
      foldl_appendCapped msgs [] (by simp)]
    simp
  refine ⟨hmain, ?_⟩
  rw [hmain, List.length_drop]
  omega

/-- Witness for C6 at the spec's Scenario C: 51 events with IDs 1..51 for
channel 7 leave the 50 messages with IDs 2..51 (ID 1 evicted). -/
theorem C6_message_cache_fifo_witness :
    (∀ m ∈ (List.range' 1 51).map (testMsg ⟨7, none⟩), m.channel = some ⟨7, none⟩) ∧
    (mapGet ((((List.range' 1 51).map (testMsg ⟨7, none⟩)).foldl cacheMessage
        ({} : Cache)).messages) (ChanS.mk 7 none).id).getD []
      = ((List.range' 1 51).map (testMsg ⟨7, none⟩)).drop
          (((List.range' 1 51).map (testMsg ⟨7, none⟩)).length - 50) ∧
    (mapGet ((((List.range' 1 51).map (testMsg ⟨7, none⟩)).foldl cacheMessage
        ({} : Cache)).messages) (ChanS.mk 7 none).id).getD []
      = (List.range' 2 50).map (testMsg ⟨7, none⟩) := by
  have hch : ∀ m ∈ (List.range' 1 51).map (testMsg ⟨7, none⟩),
      m.channel = some ⟨7, none⟩ := by decide
  have hmain := (C6_message_cache_fifo {} ⟨7, none⟩
    ((List.range' 1 51).map (testMsg ⟨7, none⟩)) hch rfl).1
  exact ⟨hch, hmain, by rw [hmain]; decide⟩

/-! The cache mutation of fetchChannelMessages. -/

/-- The loop body of `fetchChannelMessages` (src/Client.js:965-969): each
fetched message is pushed onto the cached list unless a message with its ID
is already there.  No cap is applied on this path. -/
def fetchMessagesInto (cached fetched : List Msg) : List Msg :=
  fetched.foldl
    (fun acc m => if acc.any (fun m' => m'.id = m.id) then acc else acc ++ [m])
    cached

/-- The cache effect of `fetchChannelMessages(channelId, options)`
(src/Client.js:947-975) once the request returned `fetched`. -/
def fetchChannelMessagesCache (c : Cache) (cid : Nat) (fetched : List Msg) :
    Cache :=
  { c with
    messages := mapSet c.messages cid
      (fetchMessagesInto ((mapGet c.messages cid).getD []) fetched) }

/-- The per-channel cap invariant the claim asserts: every cached channel
list holds at most 50 messages. -/
def capInvariant (c : Cache) : Prop := ∀ p ∈ c.messages, p.2.length ≤ 50

instance (c : Cache) : Decidable (capInvariant c) := by
  unfold capInvariant; infer_instance

/-- Counterexample to claim C3: a channel already at the 50-message cap plus
one `fetchChannelMessages` call returning a single fresh message leaves 51
cached entries — `fetchChannelMessages` appends without evicting, so the
claimed invariant fails after this operation. -/
theorem C3_counterexample :
    capInvariant { messages := [(7, (List.range' 1 50).map (testMsg ⟨7, none⟩))] } ∧
    ¬ capInvariant
        (fetchChannelMessagesCache
          { messages := [(7, (List.range' 1 50).map (testMsg ⟨7, none⟩))] }
          7 [testMsg ⟨7, none⟩ 51]) ∧
    ((mapGet (fetchChannelMessagesCache
          { messages := [(7, (List.range' 1 50).map (testMsg ⟨7, none⟩))] }
          7 [testMsg ⟨7, none⟩ 51]).messages 7).getD []).length = 51 := by
  refine ⟨by decide, ?_, by decide⟩
  intro hinv
  have := hinv (7, fetchMessagesInto ((List.range' 1 50).map (testMsg ⟨7, none⟩))
      [testMsg ⟨7, none⟩ 51]) (by decide)
  revert this
  decide

/-- Claim C3 as amended: the ≤ 50 bound is an invariant of `_cacheMessage`
(the mutation used by push-event ingestion and by the `sendMessage`
acknowledgement), but not of `fetchChannelMessages`, which appends fetched
messages without evicting. -/
theorem C3_cap_preserved_by_cacheMessage (c : Cache) (msg : Msg)
    (h : capInvariant c) : capInvariant (cacheMessage c msg) := by
  intro p hp
  cases hch : msg.channel with
  | none =>
    simp only [cacheMessage, hch] at hp
    cases hauth : msg.author <;> rw [hauth] at hp
    · exact h p hp
    · exact h p (by simpa using hp)
  | some ch =>
    simp only [cacheMessage, hch] at hp
    cases hauth : msg.author <;> rw [hauth] at hp <;>
      simp only at hp <;>
      rcases mem_mapSet hp with hmem | hmem
    · exact h p hmem
    · subst hmem
      exact appendCapped_length_le _ _ (by
        cases hg : mapGet c.messages ch.id with
        | none => simp [hg]
        | some ms => simpa [hg] using h (ch.id, ms) (mapGet_mem hg))
    · exact h p (by simpa using hmem)
    · subst hmem
      exact appendCapped_length_le _ _ (by
        cases hg : mapGet c.messages ch.id with
        | none => simp [hg]
        | some ms => simpa [hg] using h (ch.id, ms) (mapGet_mem hg))

/-- Witness for the amended C3: a full channel stays at 50 after one more
pushed message. -/
theorem C3_cap_preserved_witness :
    capInvariant { messages := [(7, (List.range' 1 50).map (testMsg ⟨7, none⟩))] } ∧
    capInvariant (cacheMessage
      { messages := [(7, (List.range' 1 50).map (testMsg ⟨7, none⟩))] }
      (testMsg ⟨7, none⟩ 51)) :=
  ⟨by decide, C3_cap_preserved_by_cacheMessage _ _ (by decide)⟩

/-! Session lifecycle: disconnect and the connect retry loop. -/

/-- Transport-level socket state: whether the underlying connection is
open. -/
structure SocketS where
  connected : Bool
  deriving Repr, DecidableEq

/-- The session fields `disconnect` touches: the socket reference, the two
status flags, and whether the heartbeat interval timer is installed. -/
structure Session where
  socket : Option SocketS := none
  isConnected : Bool := false
  isReady : Bool := false
  heartbeatActive : Bool := false
  deriving Repr, DecidableEq

/-- Outbound wire traffic a disconnect produces. -/
inductive WireMsg where
  | presenceOffline
  deriving Repr, DecidableEq

/-- The first definition of `disconnect()` (src/Client.js:330-359): stops
the heartbeat, sends a best-effort offline presence update while connected,
removes the handlers, closes and clears the socket and resets both flags.
This definition is dead code: a second method of the same name later in the
class body shadows it. -/
def disconnectFirst (s : Session) : Session × List WireMsg :=
  let outbound :=
    match s.socket with
    | some _ => if s.isConnected then [WireMsg.presenceOffline] else []
    | none => []
  ({ socket := none, isConnected := false, isReady := false,
     heartbeatActive := false }, outbound)

/-- The second definition of `disconnect()` (src/Client.js:1325-1331), the
one JS method dispatch actually runs: when a socket exists it closes the
transport and clears the two flags; it neither stops the heartbeat timer,
nor notifies the remote side, nor clears the socket reference, and with no
socket it does nothing at all. -/
def disconnectEffective (s : Session) : Session × List WireMsg :=
  match s.socket with
  | some sock =>
    ({ s with socket := some { sock with connected := false },
              isConnected := false, isReady := false }, [])
  | none => (s, [])

/-- The failing input for C4: a connected, ready session whose heartbeat
interval is installed. -/
def connectedSession : Session :=
  { socket := some { connected := true }, isConnected := true,
    isReady := true, heartbeatActive := true }

/-- What the effective (second) disconnect leaves behind on
`connectedSession`: transport closed and flags cleared, but heartbeat timer
still installed and the socket reference still held. -/
def closedButLeaky : Session :=
  { socket := some { connected := false }, isConnected := false,
    isReady := false, heartbeatActive := true }

/-- The state the claim (and the shadowed first disconnect) describes:
flags cleared, heartbeat cancelled, no socket. -/
def cleanSession : Session :=
  { socket := none, isConnected := false, isReady := false,
    heartbeatActive := false }

/-- Claim C4 is contradicted by the code: on a connected session with an
active heartbeat, the `disconnect()` that actually runs (the second, shadowing
definition) leaves the heartbeat timer installed and sends nothing to the
remote side, while the shadowed first definition — matching the claim —
cancels the heartbeat and sends the offline presence notice.  Both do reach
isConnected = isReady = false and a closed transport. -/
theorem C4_disconnect_shadowed :
    (disconnectEffective connectedSession).1 = closedButLeaky ∧
    (disconnectEffective connectedSession).2 = [] ∧
    (disconnectFirst connectedSession).1 = cleanSession ∧
    (disconnectFirst connectedSession).2 = [WireMsg.presenceOffline] := by
  decide

/-- The construction-time configuration (src/Client.js:51-56). -/
structure Config where
  connectionTimeout : Nat := 15000
  requestTimeout : Nat := 10000
  maxRetries : Nat := 3
  reconnectionDelay : Nat := 1000
  deriving Repr, DecidableEq

/-- A ClientError as thrown/emitted by the client: message and code. -/
structure ClientErr where
  message : String
  code : String
  deriving Repr, DecidableEq

/-- Bool-valued substring test, the model of JS `String.prototype.includes`. -/
def isPrefixB : List Char → List Char → Bool
  | [], _ => true
  | _ :: _, [] => false
  | a :: as, b :: bs => a == b && isPrefixB as bs

def isSubstrB (sub : List Char) : List Char → Bool
  | [] => sub.isEmpty
  | c :: rest => isPrefixB sub (c :: rest) || isSubstrB sub rest

def strIncludes (s sub : String) : Bool := isSubstrB sub.toList s.toList

/-- ASCII lower-casing of one character, the model of what JS
`toLowerCase()` does on the ASCII error messages this handler sees. -/
def charLower (c : Char) : Char :=
  if 65 ≤ c.toNat ∧ c.toNat ≤ 90 then Char.ofNat (c.toNat + 32) else c

def strToLower (s : String) : String := String.mk (s.toList.map charLower)

/-- Error classification inside the `connect_error` handler
(src/Client.js:227-243). -/
def classifyConnectError (errMsg : String) : ClientErr :=
  let errorStr := strToLower errMsg
  if strIncludes errorStr "401" || strIncludes errorStr "unauthorized" then
    { message := "Invalid token", code := "UNAUTHORIZED" }
  else if strIncludes errorStr "403" || strIncludes errorStr "forbidden" then
    { message := "Token expired or revoked", code := "FORBIDDEN" }
  else if strIncludes errorStr "timeout" then
    { message := "Connection timeout", code := "TIMEOUT" }
  else
    { message := "Failed to connect to server", code := "CONNECTION_ERROR" }

/-- State of the deferred result `_connectSocket` returns: a JS promise
settles at most once. -/
inductive PromiseState where
  | pending
  | resolved
  | rejected (e : ClientErr)
  deriving Repr, DecidableEq

structure ConnectState where
  retryCount : Nat := 0
  promise : PromiseState := PromiseState.pending
  deriving Repr, DecidableEq

/-- One `connect_error` event (src/Client.js:223-249): increment
`retryCount`, classify the error, emit it, and once `retryCount` reaches
`maxRetries` reject the connect promise with the classified error (a reject
of an already settled promise is a no-op). -/
def connectErrorStep (cfg : Config) (s : ConnectState) (errMsg : String) :
    ConnectState :=
  let rc := s.retryCount + 1
  let e := classifyConnectError errMsg
  { retryCount := rc,
    promise :=
      match s.promise with
      | PromiseState.pending =>
        if cfg.maxRetries ≤ rc then PromiseState.rejected e
        else PromiseState.pending
      | p => p }

/-- A run of `_connectSocket` whose transport attempts all fail: the
`connect_error` handler fires once per failed attempt. -/
def connectRun (cfg : Config) (failures : List String) : ConnectState :=
  failures.foldl (connectErrorStep cfg) {}

/-- The socket.io options `_connectSocket` passes (src/Client.js:191-199),
restricted to the fields governing automatic retries: the transport is told
to make at most `maxRetries` automatic reconnection attempts. -/
structure SocketOptions where
  reconnection : Bool
  reconnectionDelay : Nat
  reconnectionAttempts : Nat
  deriving Repr, DecidableEq

def socketIoOptions (cfg : Config) : SocketOptions :=
  { reconnection := true,
    reconnectionDelay := cfg.reconnectionDelay,
    reconnectionAttempts := cfg.maxRetries }

theorem connectSteps_settled (cfg : Config) (e : ClientErr) (l : List String) :
    ∀ rc : Nat,
      (l.foldl (connectErrorStep cfg)
        { retryCount := rc, promise := PromiseState.rejected e }).promise
      = PromiseState.rejected e := by
  induction l with
  | nil => intro rc; rfl
  | cons f rest ih =>
    intro rc
    rw [List.foldl_cons]
    exact ih (rc + 1)

theorem connectSteps_reject (cfg : Config) (l : List String) :
    ∀ k : Nat, k < cfg.maxRetries → cfg.maxRetries ≤ k + l.length →
      ∃ e, (l.foldl (connectErrorStep cfg)
          { retryCount := k, promise := PromiseState.pending }).promise
          = PromiseState.rejected e ∧
        e ∈ l.map classifyConnectError := by
  induction l with
  | nil =>
    intro k hk hle
    simp at hle
    omega
  | cons f rest ih =>
    intro k hk hle
    rw [List.foldl_cons]
    by_cases hstop : cfg.maxRetries ≤ k + 1
    · have hstep : connectErrorStep cfg
          { retryCount := k, promise := PromiseState.pending } f
          = { retryCount := k + 1,
              promise := PromiseState.rejected (classifyConnectError f) } := by
        simp [connectErrorStep, hstop]
      rw [hstep]
      exact ⟨classifyConnectError f, connectSteps_settled cfg _ rest (k + 1),
        by simp⟩
    · have hstep : connectErrorStep cfg
          { retryCount := k, promise := PromiseState.pending } f
          = { retryCount := k + 1, promise := PromiseState.pending } := by
        simp [connectErrorStep, hstop]
      rw [hstep]
      obtain ⟨e, he, hmem⟩ := ih (k + 1) (by omega)
        (by simp at hle ⊢; omega)
      exact ⟨e, he, by simp [hmem]⟩

/-- Claim C5: a connect attempt hitting exactly `maxRetries` consecutive
transient connection failures settles as rejected with a connection-family
ClientError (code CONNECTION_ERROR or TIMEOUT), the rejection is final no
matter what arrives afterwards, and the transport itself is configured to
issue at most `maxRetries` automatic reconnection attempts, so no automatic
attempts are issued beyond the bound. -/
theorem C5_retry_bound (cfg : Config) (failures : List String)
    (hpos : 0 < cfg.maxRetries)
    (hlen : failures.length = cfg.maxRetries)
    (htrans : ∀ f ∈ failures, (classifyConnectError f).code = "CONNECTION_ERROR"
      ∨ (classifyConnectError f).code = "TIMEOUT") :
    ∃ e : ClientErr,
      (connectRun cfg failures).promise = PromiseState.rejected e ∧
      (e.code = "CONNECTION_ERROR" ∨ e.code = "TIMEOUT") ∧
      (∀ more : List String,
        (connectRun cfg (failures ++ more)).promise = PromiseState.rejected e) ∧
      (socketIoOptions cfg).reconnectionAttempts = cfg.maxRetries := by
  obtain ⟨e, he, hmem⟩ := connectSteps_reject cfg failures 0 hpos (by omega)
  simp only [List.mem_map] at hmem
  obtain ⟨f, hf, rfl⟩ := hmem
  refine ⟨classifyConnectError f, he, htrans f hf, ?_, rfl⟩
  intro more
  unfold connectRun
  rw [List.foldl_append]
  rcases hsplit : failures.foldl (connectErrorStep cfg)
      ({} : ConnectState) with ⟨rc, pr⟩
  rw [hsplit] at he
  simp only at he
  rw [he]
  exact connectSteps_settled cfg _ more rc

/-- Witness for C5: three refused attempts with maxRetries = 3 reject the
connect promise with a CONNECTION_ERROR that no later event overturns. -/
theorem C5_retry_bound_witness :
    (0 < (({} : Config)).maxRetries) ∧
    (["connection refused", "connection refused",
        "connection refused"].length = (({} : Config)).maxRetries) ∧
    (∃ e : ClientErr,
      (connectRun {} ["connection refused", "connection refused",
          "connection refused"]).promise = PromiseState.rejected e ∧
      (e.code = "CONNECTION_ERROR" ∨ e.code = "TIMEOUT") ∧
      (∀ more : List String,
        (connectRun {} (["connection refused", "connection refused",
            "connection refused"] ++ more)).promise
          = PromiseState.rejected e) ∧
      (socketIoOptions {}).reconnectionAttempts = (({} : Config)).maxRetries) :=
  ⟨by decide, by decide,
    C5_retry_bound {} _ (by decide) (by decide) (by decide)⟩

/-! Event ingestion: the message:new handler, reference resolution, and the
sendMessage acknowledgement, with the echo registry linking them. -/

def userFromRaw (u : RawUser) : UserS :=
  { id := u.id, username := u.username, displayName := u.display_name,
    avatarUrl := u.avatar_url }

def chanFromRaw (ch : RawChan) : ChanS := { id := ch.id, name := ch.name }

/-- The `Message` constructor (src/lib/structures/Message.js): author and
channel are taken from the nested `data.user` / `data.channel` payloads when
present, otherwise left null. -/
def mkMessage (data : RawMsg) : Msg :=
  { id := data.id, content := data.content,
    author := data.user.map userFromRaw,
    channel := data.channel.map chanFromRaw,
    editedAt := data.edited_at }

/-- `fetchChannel(id)` (src/Client.js:1008-1023) as seen by the ingestion
path: cache first; on a miss the network answer `net` decides — `some ch`
models a successful response (cached under `channel.id`), `none` models the
request failing, in which case the JS function throws a ClientError. -/
def fetchChannel (c : Cache) (cid : Nat) (net : Option ChanS) :
    Option (ChanS × Cache) :=
  match mapGet c.channels cid with
  | some ch => some (ch, c)
  | none =>
    match net with
    | some ch => some (ch, { c with channels := mapSet c.channels ch.id ch })
    | none => none

/-- The author stub `_processSocketMessage` builds from the flat payload
fields when `data.user_id` is present but no author object was attached. -/
def stubAuthor (data : RawMsg) (uid : Nat) : UserS :=
  { id := uid, username := data.username,
    displayName := data.display_name, avatarUrl := data.avatar_url }

/-- The message after the author-stubbing step of `_processSocketMessage`:
when the constructor produced no author and `data.user_id` is present, the
stub author is attached; no network lookup is ever made for authors. -/
def processedMsg (data : RawMsg) : Msg :=
  match (mkMessage data).author, data.user_id with
  | none, some uid => { mkMessage data with author := some (stubAuthor data uid) }
  | _, _ => mkMessage data

/-- `_processSocketMessage(data)` (src/Client.js:499-516): build the
message and stub its author; a missing channel is resolved through
`fetchChannel` when `data.channel_id` is present.  Returns `none` when that
resolution throws, which aborts the caller. -/
def processSocketMessage (c : Cache) (data : RawMsg) (net : Option ChanS) :
    Option (Msg × Cache) :=
  match (processedMsg data).channel, data.channel_id with
  | none, some cid =>
    (fetchChannel c cid net).map
      (fun r => ({ processedMsg data with channel := some r.1 }, r.2))
  | _, _ => some (processedMsg data, c)

/-- The externally observable outcomes of one handler or acknowledgement
step: a `messageCreate` emission, a resolved `sendMessage` promise (the
acknowledgement path through which the sender observes the creation), or an
`error` emission. -/
inductive Obs where
  | messageCreate (m : Msg)
  | ackResolved (m : Msg)
  | errorEvent
  deriving Repr, DecidableEq

/-- `Set.add` on `_sentMessages`. -/
def sentAdd (s : List Nat) (x : Nat) : List Nat := if x ∈ s then s else x :: s

/-- Handler state: the entity cache plus the `_sentMessages` echo registry. -/
structure HState where
  cache : Cache := {}
  sent : List Nat := []
  deriving Repr, DecidableEq

/-- The `message:new` handler (src/Client.js:365-378): an ID found in the
echo registry is consumed and the event discarded; otherwise the payload is
processed and cached and `messageCreate` is emitted — unless processing
throws, in which case only `error` is emitted and the cache is untouched. -/
def messageNewHandler (s : HState) (data : RawMsg) (net : Option ChanS) :
    HState × List Obs :=
  if data.id ∈ s.sent then
    ({ s with sent := s.sent.erase data.id }, [])
  else
    match processSocketMessage s.cache data net with
    | some (msg, c') =>
      ({ s with cache := cacheMessage c' msg }, [Obs.messageCreate msg])
    | none => (s, [Obs.errorEvent])

/-- The `message:send` acknowledgement callback of `sendMessage`
(src/Client.js:781-790) for a response carrying no error: the acknowledged
ID is added to the echo registry first, then the response is processed and
cached and the promise resolves with the message.  When processing throws,
the promise never settles (the ID stays registered). -/
def sendAck (s : HState) (resp : RawMsg) (net : Option ChanS) :
    HState × List Obs :=
  let sent₁ := sentAdd s.sent resp.id
  match processSocketMessage s.cache resp net with
  | some (msg, c') =>
    ({ cache := cacheMessage c' msg, sent := sent₁ }, [Obs.ackResolved msg])
  | none => ({ s with sent := sent₁ }, [])

/-- Number of externally observable create notifications for message ID
`x` in a list of observations: resolved acknowledgements plus
`messageCreate` emissions. -/
def createNotifications (obs : List Obs) (x : Nat) : Nat :=
  obs.countP (fun o =>
    match o with
    | Obs.messageCreate m => m.id = x
    | Obs.ackResolved m => m.id = x
    | Obs.errorEvent => false)

/-- Number of `messageCreate` emissions for ID `x` alone. -/
def createEmissions (obs : List Obs) (x : Nat) : Nat :=
  obs.countP (fun o =>
    match o with
    | Obs.messageCreate m => m.id = x
    | _ => false)

/-! Facts about the processed message. -/

theorem processedMsg_id (data : RawMsg) : (processedMsg data).id = data.id := by
  unfold processedMsg
  cases (mkMessage data).author <;> cases data.user_id <;> simp [mkMessage]

theorem processedMsg_channel (data : RawMsg) :
    (processedMsg data).channel = data.channel.map chanFromRaw := by
  unfold processedMsg
  cases (mkMessage data).author <;> cases data.user_id <;> simp [mkMessage]

theorem processedMsg_author_none (data : RawMsg) (hu : data.user = none)
    (huid : data.user_id = none) : (processedMsg data).author = none := by
  unfold processedMsg
  rw [huid]
  cases h : (mkMessage data).author with
  | none => exact h
  | some a => simp [mkMessage, hu] at h

theorem processSocketMessage_of_channel (c : Cache) (data : RawMsg)
    (net : Option ChanS) (rch : RawChan) (h : data.channel = some rch) :
    processSocketMessage c data net = some (processedMsg data, c) := by
  have hch : (processedMsg data).channel = some (chanFromRaw rch) := by
    rw [processedMsg_channel, h, Option.map_some']
  unfold processSocketMessage
  rw [hch]

theorem mem_sentAdd (s : List Nat) (x : Nat) : x ∈ sentAdd s x := by
  unfold sentAdd
  split
  · assumption
  · exact List.mem_cons_self x s

theorem mem_appendCapped_self (ms : List Msg) (m : Msg) :
    m ∈ appendCapped ms m := by
  simp only [appendCapped]
  split
  · next h =>
    cases ms with
    | nil => simp at h
    | cons a t => simp
  · simp

/-! Claims C1, C2 and C9. -/

/-- A "message created" push payload whose channel must be fetched: no
nested channel object, only `channel_id`. -/
def pushBadChannel : RawMsg := { id := 1, content := "hello", channel_id := some 7 }

/-- A "message created" push payload with an attached channel but no author
information at all. -/
def pushNoAuthor : RawMsg := { id := 1, content := "hello", channel := some { id := 7 } }

/-- Counterexample to claim C1: a "message created" push event whose channel
is not cached and whose network lookup fails produces no `messageCreate`
emission at all — the handler catches the ClientError thrown by
`fetchChannel` and emits only `error`, so the event is dropped rather than
delivered with a null reference. -/
theorem C1_counterexample :
    (messageNewHandler {} pushBadChannel none).2 = [Obs.errorEvent] ∧
    createEmissions (messageNewHandler {} pushBadChannel none).2 1 = 0 := by
  decide

/-- Claim C1 as amended: an absent author degrades to null and the event is
still emitted (authors are never fetched, so an author can never fail
resolution); but an absent channel whose network lookup fails aborts the
handler — the event is dropped and a single `error` event is emitted
instead. -/
theorem C1_degrade_amended (s : HState) (data : RawMsg) (net : Option ChanS)
    (hecho : data.id ∉ s.sent) :
    (∀ rch, data.channel = some rch → data.user = none → data.user_id = none →
      (messageNewHandler s data net).2 = [Obs.messageCreate (processedMsg data)]
        ∧ (processedMsg data).author = none) ∧
    (∀ cid, data.channel = none → data.channel_id = some cid →
      mapGet s.cache.channels cid = none → net = none →
      (messageNewHandler s data net).2 = [Obs.errorEvent]) := by
  constructor
  · intro rch hch hu huid
    have hproc := processSocketMessage_of_channel s.cache data net rch hch
    unfold messageNewHandler
    rw [if_neg hecho, hproc]
    exact ⟨rfl, processedMsg_author_none data hu huid⟩
  · intro cid hch hcid hcache hnet
    have hpch : (processedMsg data).channel = none := by
      rw [processedMsg_channel, hch, Option.map_none']
    have hfetch : fetchChannel s.cache cid net = none := by
      unfold fetchChannel
      rw [hcache, hnet]
    have hproc : processSocketMessage s.cache data net = none := by
      simp only [processSocketMessage, hpch, hcid, hfetch, Option.map_none']
    unfold messageNewHandler
    rw [if_neg hecho, hproc]

/-- Witness for the amended C1: a push event with a channel payload and no
author information is emitted exactly once, with a null author. -/
theorem C1_degrade_amended_witness :
    ((1 : Nat) ∉ ({} : HState).sent) ∧
    (messageNewHandler {} pushNoAuthor none).2
      = [Obs.messageCreate (processedMsg pushNoAuthor)] ∧
    (processedMsg pushNoAuthor).author = none := by
  have h := (C1_degrade_amended {} pushNoAuthor none (by decide)).1
    { id := 7 } rfl rfl rfl
  exact ⟨by decide, h.1, h.2⟩

/-- Claim C2: after a `sendMessage` acknowledgement resolves with ID `x`, a
following push "message created" event for `x` is consumed by the echo
registry and discarded, leaving exactly one externally observable create
notification for `x` (the resolved acknowledgement); with no preceding
acknowledgement, the push event alone produces the single notification. -/
theorem C2_echo_suppression (s : HState) (x : Nat) (resp pdata : RawMsg)
    (net₁ net₂ : Option ChanS) (rch prch : RawChan)
    (hrid : resp.id = x) (hpid : pdata.id = x)
    (hrch : resp.channel = some rch) :
    createNotifications ((sendAck s resp net₁).2
        ++ (messageNewHandler (sendAck s resp net₁).1 pdata net₂).2) x = 1 ∧
    (x ∉ s.sent → pdata.channel = some prch →
      createNotifications (messageNewHandler s pdata net₂).2 x = 1) := by
  constructor
  · have hproc := processSocketMessage_of_channel s.cache resp net₁ rch hrch
    have hack : sendAck s resp net₁
        = ({ cache := cacheMessage s.cache (processedMsg resp),
             sent := sentAdd s.sent resp.id }, [Obs.ackResolved (processedMsg resp)]) := by
      unfold sendAck
      rw [hproc]
    have hmem : pdata.id ∈ (sendAck s resp net₁).1.sent := by
      rw [hack, hpid, ← hrid]
      exact mem_sentAdd s.sent resp.id
    have hpush : (messageNewHandler (sendAck s resp net₁).1 pdata net₂).2 = [] := by
      unfold messageNewHandler
      rw [if_pos hmem]
    rw [hpush, hack]
    simp [createNotifications, processedMsg_id, hrid]
  · intro hx hpch
    have hproc := processSocketMessage_of_channel s.cache pdata net₂ prch hpch
    have hne : pdata.id ∉ s.sent := by rw [hpid]; exact hx
    unfold messageNewHandler
    rw [if_neg hne, hproc]
    simp [createNotifications, processedMsg_id, hpid]

/-- A well-formed `message:send` acknowledgement payload: ID 55, with the
channel object attached. -/
def ackResp : RawMsg := { id := 55, content := "hi", channel := some { id := 7 } }

/-- The push echo of `ackResp`. -/
def echoPush : RawMsg := { id := 55, content := "hi", channel := some { id := 7 } }

/-- Witness for C2 at the spec's Scenario B: acknowledgement of ID 55
followed by its push echo yields one create notification for 55; the echo
alone from a fresh client also yields exactly one. -/
theorem C2_echo_suppression_witness :
    (ackResp.id = 55 ∧ echoPush.id = 55
      ∧ ackResp.channel = some { id := 7, name := none }) ∧
    createNotifications ((sendAck {} ackResp none).2
        ++ (messageNewHandler (sendAck {} ackResp none).1 echoPush none).2) 55 = 1 ∧
    ((55 : Nat) ∉ ({} : HState).sent ∧
      createNotifications (messageNewHandler {} echoPush none).2 55 = 1) := by
  have h := C2_echo_suppression {} 55 ackResp echoPush none none
    { id := 7 } { id := 7 } rfl rfl rfl
  exact ⟨by decide, h.1, by decide, h.2 (by decide) rfl⟩

/-- An acknowledgement payload carrying no channel information at all. -/
def bareAck : RawMsg := { id := 55, content := "hi" }

/-- Counterexample to claim C9: an error-free acknowledgement whose payload
carries neither a channel object nor a `channel_id` resolves the promise and
records the ID in the echo registry, but inserts nothing into any
per-channel message cache — the message list map stays empty. -/
theorem C9_counterexample :
    (sendAck {} bareAck none).2 = [Obs.ackResolved (processedMsg bareAck)] ∧
    (sendAck {} bareAck none).1.cache.messages = [] ∧
    (55 : Nat) ∈ (sendAck {} bareAck none).1.sent := by
  decide

/-- Claim C9 as amended: whenever the acknowledgement resolves, the
acknowledged ID is in the echo registry of the resulting state; and the
resolved message is present in its channel's cached list provided the
processed message carries a channel reference. -/
theorem C9_ack_amended (s : HState) (resp : RawMsg) (net : Option ChanS)
    (msg : Msg) (hres : (sendAck s resp net).2 = [Obs.ackResolved msg]) :
    resp.id ∈ (sendAck s resp net).1.sent ∧
    ∀ ch, msg.channel = some ch →
      ∃ ms, mapGet (sendAck s resp net).1.cache.messages ch.id = some ms
        ∧ msg ∈ ms := by
  cases hp : processSocketMessage s.cache resp net with
  | none =>
    exfalso
    unfold sendAck at hres
    rw [hp] at hres
    simp at hres
  | some r =>
    obtain ⟨m, c'⟩ := r
    have hsend : sendAck s resp net
        = ({ cache := cacheMessage c' m, sent := sentAdd s.sent resp.id },
           [Obs.ackResolved m]) := by
      unfold sendAck
      rw [hp]
    have hm : m = msg := by
      rw [hsend] at hres
      simpa using hres
    subst hm
    rw [hsend]
    refine ⟨mem_sentAdd s.sent resp.id, ?_⟩
    intro ch hch
    refine ⟨appendCapped ((mapGet c'.messages ch.id).getD []) m, ?_, ?_⟩
    · exact cacheMessage_messages_get c' m ch hch
    · exact mem_appendCapped_self _ m

/-- Witness for the amended C9: the channel-carrying acknowledgement
`ackResp` resolves, registers ID 55, and its message lands in channel 7's
cached list. -/
theorem C9_ack_amended_witness :
    ((sendAck {} ackResp none).2 = [Obs.ackResolved (processedMsg ackResp)]) ∧
    (55 : Nat) ∈ (sendAck {} ackResp none).1.sent ∧
    (∃ ms, mapGet (sendAck {} ackResp none).1.cache.messages 7 = some ms
      ∧ processedMsg ackResp ∈ ms) := by
  have h := C9_ack_amended {} ackResp none (processedMsg ackResp) (by decide)
  exact ⟨by decide, h.1, by simpa using h.2 { id := 7, name := none } (by decide)⟩

end Beniocord
